import Mathlib

/-!
Verification of the conversation/team activity pipeline.

Shallow embedding of the activity assembly, key-binding, one-on-one
resolution, submission routing and list normalization logic of the
conversation plugin, plus the outbound team encryption transform.
JavaScript objects are modelled as structures with `Option` fields
(`none` models an absent / `undefined` property); JavaScript truthiness
of string-valued properties is modelled by `truthy` (the empty string is
falsy).  Fallible paths return `Except` values.
-/

/-- JavaScript truthiness of an optional string property: present and
non-empty. -/
def truthy : Option String → Bool
  | some s => !s.isEmpty
  | none => false

/-- An encryption key as handed around by the KMS collaborator. -/
structure Key where
  uri : String
deriving DecidableEq, Repr

/-- Result shape of a key source: `createUnboundKeys` (or a caller) may
hand over a single key or an array of keys; the code does
`isArray(keys) ? keys[0] : keys`. -/
inductive Keys where
  | single (k : Key)
  | batch (ks : List Key)
deriving DecidableEq, Repr

/-- The `isArray(keys) ? keys[0] : keys` selection.  `none` models the
JavaScript `undefined` obtained from `[][0]`. -/
def pickFirst : Keys → Option Key
  | .single k => some k
  | .batch ks => ks.head?

/-- A KMS message as built by the pipeline (`method`/`uri` always set,
the remaining properties only on the paths that add them). -/
structure KmsMessage where
  method : String
  uri : String
  resourceUri : Option String
  userIds : Option (List String)
  keyUris : Option (List String)
deriving DecidableEq, Repr

/-- A structured activity entity (the shape taken by `actor`, `object`
and `target` when they are objects).  Covers exactly the properties the
pipeline reads or writes. -/
structure Entity where
  objectType : Option String
  id : Option String
  url : Option String
  content : Option String
  displayName : Option String
  kmsResourceObjectUrl : Option String
  defaultActivityEncryptionKeyUrl : Option String
deriving DecidableEq, Repr

/-- The empty object `{}`. -/
def Entity.empty : Entity := ⟨none, none, none, none, none, none, none⟩

/-- An `actor` is either a bare identifier string or a structured
entity. -/
inductive Actor where
  | str (s : String)
  | ent (e : Entity)
deriving DecidableEq, Repr

/-- An activity record under construction or ready for submission. -/
structure Activity where
  verb : Option String
  kmsMessage : Option KmsMessage
  objectType : Option String
  clientTempId : Option String
  actor : Option Actor
  object : Option Entity
  target : Option Entity
deriving DecidableEq, Repr

/-- The empty activity `{}`. -/
def Activity.empty : Activity := ⟨none, none, none, none, none, none, none⟩

/-! ## ActivitySubmitter (`submit`) -/

/-- Query parameters attached to a submission. -/
structure SubmitQs where
  personRefresh : Bool
  transcode : Option Bool
  async : Option Bool
deriving DecidableEq, Repr

/-- The request descriptor built by `submit`. -/
structure SubmitParams where
  method : String
  service : String
  resource : String
  qs : SubmitQs
deriving DecidableEq, Repr

/-- `submit(activity)`: builds the request descriptor (share activities
go to the `content` resource with `transcode`/`async`, everything else
to `activities`; `personRefresh` always) and reports, as the second
component, whether the `user-activity` event is triggered (every verb
except `acknowledge`). -/
def submit (a : Activity) : SubmitParams × Bool :=
  let baseQs : SubmitQs := ⟨true, none, none⟩
  let qs :=
    if a.verb = some "share" then
      { baseQs with transcode := some true, async := some false }
    else baseQs
  let params : SubmitParams :=
    { method := "POST"
      service := "conversation"
      resource := if a.verb = some "share" then "content" else "activities"
      qs := qs }
  (params, if a.verb = some "acknowledge" then false else true)

/-! ## ListPager (`_list`) -/

/-- An item of a list response; only the `published` timestamp matters
for the ordering logic. -/
structure ListItem where
  published : Nat
deriving DecidableEq, Repr

/-- The response-normalization step of `_list`: missing or empty item
collections yield `[]`; otherwise the items are reversed exactly when
the last item's `published` precedes the first item's. -/
def _list (body : Option (List ListItem)) : List ListItem :=
  match body with
  | none => []
  | some [] => []
  | some (first :: rest) =>
    if ((first :: rest).getLastD first).published < first.published then
      (first :: rest).reverse
    else
      first :: rest

/-- Chronological ascending order by `published` (adjacent-pairs
formulation). -/
def ChronAscending (l : List ListItem) : Prop :=
  List.Chain' (fun a b => a.published ≤ b.published) l

/-- Chronological descending order by `published`. -/
def ChronDescending (l : List ListItem) : Prop :=
  List.Chain' (fun a b => b.published ≤ a.published) l

/-- Executable check for `ChronAscending`. -/
def chronAscendB : List ListItem → Bool
  | [] => true
  | [_] => true
  | a :: b :: t => decide (a.published ≤ b.published) && chronAscendB (b :: t)

/-- Executable check for `ChronDescending`. -/
def chronDescendB : List ListItem → Bool
  | [] => true
  | [_] => true
  | a :: b :: t => decide (b.published ≤ a.published) && chronDescendB (b :: t)

theorem chronAscendB_iff (l : List ListItem) :
    chronAscendB l = true ↔ ChronAscending l := by
  match l with
  | [] => simp [chronAscendB, ChronAscending]
  | [a] => simp [chronAscendB, ChronAscending]
  | a :: b :: t =>
    rw [ChronAscending, List.chain'_cons]
    have ih := chronAscendB_iff (b :: t)
    rw [ChronAscending] at ih
    simp [chronAscendB, ih]

theorem chronDescendB_iff (l : List ListItem) :
    chronDescendB l = true ↔ ChronDescending l := by
  match l with
  | [] => simp [chronDescendB, ChronDescending]
  | [a] => simp [chronDescendB, ChronDescending]
  | a :: b :: t =>
    rw [ChronDescending, List.chain'_cons]
    have ih := chronDescendB_iff (b :: t)
    rw [ChronDescending] at ih
    simp [chronDescendB, chronAscendB, ih]

instance decChronAscending (l : List ListItem) : Decidable (ChronAscending l) :=
  decidable_of_iff _ (chronAscendB_iff l)

instance decChronDescending (l : List ListItem) : Decidable (ChronDescending l) :=
  decidable_of_iff _ (chronDescendB_iff l)

/-! ## Avatar assignment guard (`assign`) -/

/-- The size-relevant properties of an avatar file: browser `File`s have
`size`, buffers have `length`. -/
structure Avatar where
  size : Option Nat
  length : Option Nat
deriving DecidableEq, Repr

/-- The value of the JavaScript expression `avatar.size || avatar.length`
(`0` and `undefined` are falsy, so a zero `size` falls through to
`length`). -/
def avatarEffectiveSize (a : Avatar) : Option Nat :=
  match a.size with
  | some n => if n = 0 then a.length else some n
  | none => a.length

/-- The side effects `assign` would perform after the size guard. -/
inductive AssignEffect where
  | inferConversationUrl
  | prepareShare
  | submitActivity
deriving DecidableEq, Repr

/-- `assign(conversation, avatar)` reduced to its effect trace: the size
guard runs first and, when it fires, the call rejects with the 1MB
message before any other step; otherwise the pipeline (URL inference,
share preparation, submission) runs.  A missing effective size compares
as `0` (in JavaScript `undefined > n` is false). -/
def assign (avatar : Avatar) : List AssignEffect × Option String :=
  if (avatarEffectiveSize avatar).getD 0 > 1024 * 1024 then
    ([], some "Room avatars must be less than 1MB")
  else
    ([.inferConversationUrl, .prepareShare, .submitActivity], none)

/-! ## Theorems: submission routing (C6, C7) -/

/-- C6: for every activity, the submission always carries
`personRefresh=true`; a `share` verb targets the `content` resource with
`transcode=true` and `async=false`; every other verb targets the
`activities` resource without those parameters. -/
theorem submit_share_routing (a : Activity) :
    (submit a).1.qs.personRefresh = true
    ∧ (a.verb = some "share" →
        (submit a).1.resource = "content"
        ∧ (submit a).1.qs.transcode = some true
        ∧ (submit a).1.qs.async = some false)
    ∧ (a.verb ≠ some "share" →
        (submit a).1.resource = "activities"
        ∧ (submit a).1.qs.transcode = none
        ∧ (submit a).1.qs.async = none) := by
  by_cases h : a.verb = some "share" <;> simp [submit, h]

/-- A share activity and a post activity, used as concrete inputs. -/
def shareActivity : Activity := { Activity.empty with verb := some "share" }

/-- A plain post activity. -/
def postActivity : Activity := { Activity.empty with verb := some "post" }

/-- An acknowledge activity. -/
def ackActivity : Activity := { Activity.empty with verb := some "acknowledge" }

/-- Witness for C6 at concrete share and post activities. -/
theorem submit_share_routing_witness :
    (submit shareActivity).1.resource = "content"
    ∧ (submit shareActivity).1.qs.transcode = some true
    ∧ (submit shareActivity).1.qs.async = some false
    ∧ (submit postActivity).1.resource = "activities"
    ∧ (submit postActivity).1.qs.personRefresh = true := by
  have h1 := (submit_share_routing shareActivity).2.1 (by decide)
  have h2 := (submit_share_routing postActivity).2.2 (by decide)
  have h3 := (submit_share_routing postActivity).1
  exact ⟨h1.1, h1.2.1, h1.2.2, h2.1, h3⟩

/-- C7: the `user-activity` notification fires exactly when the verb is
not `acknowledge`. -/
theorem submit_user_activity_trigger (a : Activity) :
    (submit a).2 = true ↔ a.verb ≠ some "acknowledge" := by
  by_cases h : a.verb = some "acknowledge" <;> simp [submit, h]

/-- Witness for C7: acknowledge does not fire it, post does. -/
theorem submit_user_activity_trigger_witness :
    (submit ackActivity).2 = false ∧ (submit postActivity).2 = true := by
  have h2 := (submit_user_activity_trigger postActivity).mpr (by decide)
  exact ⟨by decide, h2⟩

/-! ## Theorems: avatar size guard (C10) -/

/-- C10: an avatar whose effective size (`size || length`) exceeds
1048576 bytes is rejected with the 1MB message and no pipeline effect is
performed. -/
theorem assign_rejects_oversized (avatar : Avatar) (n : Nat)
    (h1 : avatarEffectiveSize avatar = some n) (h2 : 1048576 < n) :
    assign avatar = ([], some "Room avatars must be less than 1MB") := by
  have hgt : (avatarEffectiveSize avatar).getD 0 > 1024 * 1024 := by
    rw [h1]
    simpa using h2
  simp [assign, hgt]

/-- A 2MB avatar. -/
def bigAvatar : Avatar := ⟨some 2097152, none⟩

/-- Witness for C10 at a 2MB avatar. -/
theorem assign_rejects_oversized_witness :
    assign bigAvatar = ([], some "Room avatars must be less than 1MB") :=
  assign_rejects_oversized bigAvatar 2097152 (by decide) (by decide)

/-! ## Theorems: list ordering (C4) -/

/-- In a descending run every element is bounded by the head. -/
theorem chronDesc_le_head (x : ListItem) (xs : List ListItem) :
    ChronDescending (x :: xs) → ∀ y ∈ x :: xs, y.published ≤ x.published := by
  induction xs generalizing x with
  | nil =>
    intro _ y hy
    rw [List.mem_singleton] at hy
    exact hy ▸ Nat.le_refl _
  | cons a t ih =>
    intro h y hy
    rw [ChronDescending, List.chain'_cons] at h
    rcases List.mem_cons.mp hy with hyx | hyt
    · exact hyx ▸ Nat.le_refl _
    · exact Nat.le_trans (ih a h.2 y hyt) h.1

/-- The default value of `getLastD` is irrelevant on a non-empty
list. -/
theorem getLastD_irrel (a x y : ListItem) (t : List ListItem) :
    (a :: t).getLastD x = (a :: t).getLastD y := by
  rw [List.getLastD_cons, List.getLastD_cons]

/-- In a descending run the last element bounds every element from
below. -/
theorem chronDesc_last_le (x : ListItem) (xs : List ListItem) :
    ChronDescending (x :: xs) →
      ∀ y ∈ x :: xs, ((x :: xs).getLastD x).published ≤ y.published := by
  induction xs generalizing x with
  | nil =>
    intro _ y hy
    rw [List.mem_singleton] at hy
    subst hy
    rw [List.getLastD_cons, List.getLastD_nil]
  | cons a t ih =>
    intro h y hy
    rw [ChronDescending, List.chain'_cons] at h
    have hlast : (x :: a :: t).getLastD x = (a :: t).getLastD a := by
      rw [List.getLastD_cons]
      exact getLastD_irrel a x a t
    rw [hlast]
    rcases List.mem_cons.mp hy with hyx | hyt
    · subst hyx
      exact Nat.le_trans (ih a h.2 a (List.mem_cons_self a t)) h.1
    · exact ih a h.2 y hyt

/-- In an ascending run the head bounds every element from below. -/
theorem chronAsc_head_le (x : ListItem) (xs : List ListItem) :
    ChronAscending (x :: xs) → ∀ y ∈ x :: xs, x.published ≤ y.published := by
  induction xs generalizing x with
  | nil =>
    intro _ y hy
    rw [List.mem_singleton] at hy
    exact hy ▸ Nat.le_refl _
  | cons a t ih =>
    intro h y hy
    rw [ChronAscending, List.chain'_cons] at h
    rcases List.mem_cons.mp hy with hyx | hyt
    · exact hyx ▸ Nat.le_refl _
    · exact Nat.le_trans h.1 (ih a h.2 y hyt)

/-- The defaulted last element of a non-empty list is a member. -/
theorem getLastD_cons_mem (x : ListItem) (xs : List ListItem) :
    (x :: xs).getLastD x ∈ x :: xs := by
  induction xs generalizing x with
  | nil =>
    rw [List.getLastD_cons, List.getLastD_nil]
    exact List.mem_cons_self x []
  | cons a t ih =>
    have h0 : (x :: a :: t).getLastD x = (a :: t).getLastD a := by
      rw [List.getLastD_cons]
      exact getLastD_irrel a x a t
    rw [h0]
    exact List.mem_cons_of_mem x (ih a)

/-- A descending run whose first element does not exceed its last is
already ascending (all timestamps are equal). -/
theorem chronDesc_asc_of_first_le_last (x : ListItem) (xs : List ListItem) :
    ChronDescending (x :: xs) →
    x.published ≤ ((x :: xs).getLastD x).published →
    ChronAscending (x :: xs) := by
  induction xs generalizing x with
  | nil =>
    intro _ _
    exact List.chain'_singleton x
  | cons a t ih =>
    intro h hle
    rw [ChronDescending, List.chain'_cons] at h
    have hlast : (x :: a :: t).getLastD x = (a :: t).getLastD a := by
      rw [List.getLastD_cons]
      exact getLastD_irrel a x a t
    rw [hlast] at hle
    have h1 : ((a :: t).getLastD a).published ≤ a.published :=
      chronDesc_last_le a t h.2 a (List.mem_cons_self a t)
    have hxa : x.published ≤ a.published := Nat.le_trans hle h1
    have hale : a.published ≤ ((a :: t).getLastD a).published :=
      Nat.le_trans h.1 hle
    have htail := ih a h.2 hale
    rw [ChronAscending, List.chain'_cons]
    exact ⟨hxa, htail⟩

/-- C4 counterexample: the backend collection with `published` values
`[1,3,2]` is returned unsorted, so the result of `_list` is not always
chronological ascending. -/
theorem list_not_always_ascending :
    ¬ ChronAscending (_list (some [⟨1⟩, ⟨3⟩, ⟨2⟩])) := by decide

/-- C4 amended: `_list` returns `[1,3,5]` for published values `[5,3,1]`;
in general it reverses the items exactly when the last item's `published`
precedes the first item's, and the result is chronological ascending
whenever the backend collection is monotone (descending or already
ascending) — but an unsorted collection is returned as-is. -/
theorem list_reverse_iff_last_lt_first :
    _list (some [⟨5⟩, ⟨3⟩, ⟨1⟩]) = [⟨1⟩, ⟨3⟩, ⟨5⟩]
    ∧ (∀ first rest, _list (some (first :: rest)) =
        if ((first :: rest).getLastD first).published < first.published
        then (first :: rest).reverse else first :: rest)
    ∧ (∀ first rest, ChronDescending (first :: rest) →
        ChronAscending (_list (some (first :: rest))))
    ∧ (∀ first rest, ChronAscending (first :: rest) →
        ChronAscending (_list (some (first :: rest)))) := by
  refine ⟨by decide, ?_, ?_, ?_⟩
  · intro first rest
    rfl
  · intro first rest h
    have heq : _list (some (first :: rest)) =
        if ((first :: rest).getLastD first).published < first.published
        then (first :: rest).reverse else first :: rest := rfl
    by_cases hc : ((first :: rest).getLastD first).published < first.published
    · rw [heq, if_pos hc, ChronAscending, List.chain'_reverse]
      exact h
    · rw [heq, if_neg hc]
      exact chronDesc_asc_of_first_le_last first rest h (Nat.not_lt.mp hc)
  · intro first rest h
    have heq : _list (some (first :: rest)) =
        if ((first :: rest).getLastD first).published < first.published
        then (first :: rest).reverse else first :: rest := rfl
    by_cases hc : ((first :: rest).getLastD first).published < first.published
    · have h1 : first.published ≤ ((first :: rest).getLastD first).published :=
        chronAsc_head_le first rest h _ (getLastD_cons_mem first rest)
      exact absurd hc (Nat.not_lt.mpr h1)
    · rw [heq, if_neg hc]
      exact h

/-- Witness for C4 amended on a concrete descending and a concrete
ascending collection. -/
theorem list_reverse_iff_last_lt_first_witness :
    ChronAscending (_list (some [⟨9⟩, ⟨7⟩, ⟨4⟩]))
    ∧ ChronAscending (_list (some [⟨2⟩, ⟨6⟩, ⟨8⟩])) := by
  constructor
  · exact list_reverse_iff_last_lt_first.2.2.1 ⟨9⟩ [⟨7⟩, ⟨4⟩] (by decide)
  · exact list_reverse_iff_last_lt_first.2.2.2 ⟨2⟩ [⟨6⟩, ⟨8⟩] (by decide)

/-! ## ActivityBuilder (`prepare`) -/

/-- Ambient context of a pipeline call: the current device user
identifier and the fresh client temp id minted for this call. -/
structure Ctx where
  userId : String
  freshTempId : String
deriving DecidableEq, Repr

/-- The `params` record accepted by `prepare`. -/
structure PrepareParams where
  verb : Option String
  kmsMessage : Option KmsMessage
  target : Option Entity
  object : Option Entity
  actor : Option Entity
deriving DecidableEq, Repr

/-- Empty params `{}`. -/
def PrepareParams.empty : PrepareParams := ⟨none, none, none, none, none⟩

/-- lodash `defaults(dst, src)` on entities: fills only the absent
properties of `dst` from `src`. -/
def entityDefaults (dst src : Entity) : Entity :=
  { objectType := dst.objectType <|> src.objectType
    id := dst.id <|> src.id
    url := dst.url <|> src.url
    content := dst.content <|> src.content
    displayName := dst.displayName <|> src.displayName
    kmsResourceObjectUrl := dst.kmsResourceObjectUrl <|> src.kmsResourceObjectUrl
    defaultActivityEncryptionKeyUrl :=
      dst.defaultActivityEncryptionKeyUrl <|> src.defaultActivityEncryptionKeyUrl }

/-- lodash `merge(dst, src)` on flat entities: defined source properties
overwrite, absent ones keep the destination value. -/
def entityMerge (dst src : Entity) : Entity :=
  { objectType := src.objectType <|> dst.objectType
    id := src.id <|> dst.id
    url := src.url <|> dst.url
    content := src.content <|> dst.content
    displayName := src.displayName <|> dst.displayName
    kmsResourceObjectUrl := src.kmsResourceObjectUrl <|> dst.kmsResourceObjectUrl
    defaultActivityEncryptionKeyUrl :=
      src.defaultActivityEncryptionKeyUrl <|> dst.defaultActivityEncryptionKeyUrl }

/-- Trailing path segment of a URL, as computed by
`url.split("/").pop()`. -/
def lastSegment (url : String) : String :=
  (url.splitOn "/").getLastD ""

/-- `defaults(act[key], params[key])` for the actor slot.  The string
rewrite step has already run when this is applied, so the string case
cannot arise; it is kept for totality and mirrors the fact that lodash
would leave a primitive untouched. -/
def Actor.defaultsFrom : Actor → Entity → Actor
  | .ent e, src => .ent (entityDefaults e src)
  | .str s, _ => .str s

/-- The `objectType` property read off an actor value (reading it off a
bare string yields `undefined`). -/
def Actor.objectType : Actor → Option String
  | .str _ => none
  | .ent e => e.objectType

/-- Derivation of a missing `id` from the trailing path segment of
`url` (applied to `object` and `target`); fires only when `url` is
truthy and `id` is falsy. -/
def deriveId (e : Entity) : Entity :=
  if truthy e.url && !truthy e.id then
    { e with id := some (lastSegment (e.url.getD "")) }
  else e

/-- The pure construction phase of `prepare`: default fill (`verb`,
`kmsMessage`, `objectType`, `clientTempId`, `actor`), string-actor
rewrite, `defaults` of `actor`/`object` from the params, allow-listed
`merge` of `params.target`, and id derivation — before validation.  The
working activity is the caller's partial activity (or the output of its
preparation hook, an external collaborator). -/
def buildAct (ctx : Ctx) (act0 : Activity) (params : PrepareParams) : Activity :=
  let act1 : Activity :=
    { act0 with
      verb := act0.verb <|> params.verb
      kmsMessage := act0.kmsMessage <|> params.kmsMessage
      objectType := act0.objectType <|> some "activity"
      clientTempId := act0.clientTempId <|> some ctx.freshTempId
      actor := act0.actor <|> some (.str ctx.userId) }
  let act2 : Activity :=
    { act1 with
      actor :=
        match act1.actor with
        | some (.str s) =>
          some (.ent { Entity.empty with objectType := some "person", id := some s })
        | other => other }
  let act3 : Activity :=
    match params.actor with
    | some pa =>
      { act2 with actor := some ((act2.actor.getD (.ent Entity.empty)).defaultsFrom pa) }
    | none => act2
  let act4 : Activity :=
    match params.object with
    | some po =>
      { act3 with object := some (entityDefaults (act3.object.getD Entity.empty) po) }
    | none => act3
  let act5 : Activity :=
    match params.target with
    | some pt =>
      let picked : Entity :=
        { Entity.empty with
          id := pt.id
          url := pt.url
          objectType := pt.objectType
          kmsResourceObjectUrl := pt.kmsResourceObjectUrl
          defaultActivityEncryptionKeyUrl := pt.defaultActivityEncryptionKeyUrl }
      { act4 with target := some (entityMerge (act4.target.getD Entity.empty) picked) }
    | none => act4
  { act5 with object := act5.object.map deriveId, target := act5.target.map deriveId }

/-- The actor slot fails the objectType check: populated but with a
falsy `objectType`. -/
def actorOTfail (a : Activity) : Bool :=
  match a.actor with
  | some x => !truthy x.objectType
  | none => false

/-- The object slot fails the objectType check. -/
def objectOTfail (a : Activity) : Bool :=
  match a.object with
  | some e => !truthy e.objectType
  | none => false

/-- The target slot fails the objectType check. -/
def targetOTfail (a : Activity) : Bool :=
  match a.target with
  | some e => !truthy e.objectType
  | none => false

/-- Rejections raised by `prepare`: the thrown construction error for a
missing `objectType` (carrying the offending slot name) and the
rejected semantic error for `content` without `displayName`. -/
inductive PrepError where
  | missingObjectType (key : String)
  | contentWithoutDisplayName
deriving DecidableEq, Repr

/-- The `forEach` objectType validation: first offending slot in source
order (`actor`, `object`, `target`), if any. -/
def validateObjectTypes (a : Activity) : Option String :=
  if actorOTfail a then some "actor"
  else if objectOTfail a then some "object"
  else if targetOTfail a then some "target"
  else none

/-- `prepare(activity, params)`: construction followed by the two
validations, in source order. -/
def prepare (ctx : Ctx) (act : Activity) (params : PrepareParams) :
    Except PrepError Activity :=
  match validateObjectTypes (buildAct ctx act params) with
  | some key => .error (.missingObjectType key)
  | none =>
    match (buildAct ctx act params).object with
    | some e =>
      if truthy e.content && !truthy e.displayName then
        .error .contentWithoutDisplayName
      else .ok (buildAct ctx act params)
    | none => .ok (buildAct ctx act params)

/-- Every populated slot of `actor`/`object`/`target` carries a truthy
`objectType`. -/
def populatedHasObjectType (a : Activity) : Bool :=
  !actorOTfail a && !objectOTfail a && !targetOTfail a

theorem validateObjectTypes_none_iff (a : Activity) :
    validateObjectTypes a = none ↔ populatedHasObjectType a = true := by
  unfold validateObjectTypes populatedHasObjectType
  by_cases h1 : actorOTfail a <;> by_cases h2 : objectOTfail a <;>
    by_cases h3 : targetOTfail a <;> simp [h1, h2, h3]

theorem prepare_ok_inv (ctx : Ctx) (act : Activity) (params : PrepareParams)
    (a : Activity) (h : prepare ctx act params = .ok a) :
    a = buildAct ctx act params
    ∧ validateObjectTypes (buildAct ctx act params) = none := by
  unfold prepare at h
  cases hv : validateObjectTypes (buildAct ctx act params) with
  | some key =>
    rw [hv] at h
    simp at h
  | none =>
    rw [hv] at h
    refine ⟨?_, rfl⟩
    cases ho : (buildAct ctx act params).object with
    | none =>
      rw [ho] at h
      simpa using h.symm
    | some e =>
      rw [ho] at h
      by_cases hce : truthy e.content && !truthy e.displayName
      · simp [hce] at h
      · simp [hce] at h
        exact h.symm

/-- C3: every activity returned by `prepare` has a truthy `objectType`
on each populated one of `actor`/`object`/`target`; and whenever the
constructed activity has a populated slot without one, `prepare` fails
with the construction error instead of returning an activity. -/
theorem prepare_objectType_guard (ctx : Ctx) (act : Activity) (params : PrepareParams) :
    (∀ a, prepare ctx act params = .ok a → populatedHasObjectType a = true)
    ∧ (populatedHasObjectType (buildAct ctx act params) = false →
        ∃ key, prepare ctx act params = .error (.missingObjectType key)) := by
  constructor
  · intro a ha
    obtain ⟨haeq, hv⟩ := prepare_ok_inv ctx act params a ha
    subst haeq
    exact (validateObjectTypes_none_iff _).mp hv
  · intro hbad
    cases hv : validateObjectTypes (buildAct ctx act params) with
    | none =>
      rw [(validateObjectTypes_none_iff _).mp hv] at hbad
      simp at hbad
    | some key =>
      refine ⟨key, ?_⟩
      unfold prepare
      rw [hv]

/-- Concrete context for witnesses. -/
def ctx0 : Ctx := ⟨"user-0", "temp-0"⟩

/-- Params carrying a well-formed comment object. -/
def goodObjectParams : PrepareParams :=
  { PrepareParams.empty with
    verb := some "post"
    object := some { Entity.empty with objectType := some "comment", displayName := some "hi" } }

/-- A partial activity whose object lacks `objectType`. -/
def badObjectAct : Activity :=
  { Activity.empty with object := some { Entity.empty with displayName := some "hi" } }

/-- Witness for C3: a well-formed preparation yields only slots with
`objectType`; an object without `objectType` makes `prepare` fail. -/
theorem prepare_objectType_guard_witness :
    populatedHasObjectType (buildAct ctx0 Activity.empty goodObjectParams) = true
    ∧ ∃ key, prepare ctx0 badObjectAct PrepareParams.empty
        = .error (.missingObjectType key) := by
  constructor
  · exact (prepare_objectType_guard ctx0 Activity.empty goodObjectParams).1
      (buildAct ctx0 Activity.empty goodObjectParams) rfl
  · exact (prepare_objectType_guard ctx0 badObjectAct PrepareParams.empty).2 (by decide)

/-- C8: when the constructed activity's object carries truthy `content`
but falsy `displayName`, `prepare` never returns an activity, and (as
soon as the objectType validation passes) rejects with the semantic
`content` / `displayName` error. -/
theorem prepare_content_requires_displayName (ctx : Ctx) (act : Activity)
    (params : PrepareParams) (e : Entity)
    (h1 : (buildAct ctx act params).object = some e)
    (h2 : truthy e.content = true) (h3 : truthy e.displayName = false) :
    (∀ a, prepare ctx act params ≠ .ok a)
    ∧ (validateObjectTypes (buildAct ctx act params) = none →
        prepare ctx act params = .error .contentWithoutDisplayName) := by
  constructor
  · intro a ha
    obtain ⟨_, hv⟩ := prepare_ok_inv ctx act params a ha
    unfold prepare at ha
    rw [hv, h1] at ha
    simp [h2, h3] at ha
  · intro hv
    unfold prepare
    rw [hv, h1]
    simp [h2, h3]

/-- A partial activity whose object has `content` but no
`displayName`. -/
def contentObjectEntity : Entity :=
  { Entity.empty with objectType := some "comment", content := some "<b>hi</b>" }

/-- The partial activity carrying `contentObjectEntity`. -/
def contentAct : Activity :=
  { Activity.empty with object := some contentObjectEntity }

/-- Witness for C8 at a concrete content-without-displayName object. -/
theorem prepare_content_requires_displayName_witness :
    prepare ctx0 contentAct PrepareParams.empty
      = .error .contentWithoutDisplayName :=
  (prepare_content_requires_displayName ctx0 contentAct PrepareParams.empty
    contentObjectEntity (by decide) (by decide) (by decide)).2 (by decide)

/-! ## OneOnOneResolver (`_maybeCreateOneOnOneThenPost`) -/

/-- `expand(verb, object, target, actor)`: shapes a bare activity; an
absent actor defaults to the current user id, string actors are
rewritten to person entities. -/
def expand (ctx : Ctx) (verb : String) (object target : Option Entity)
    (actor : Option Actor) : Activity :=
  let finalActor : Option Actor :=
    match actor with
    | none =>
      some (.ent { Entity.empty with objectType := some "person", id := some ctx.userId })
    | some (.str s) =>
      some (.ent { Entity.empty with objectType := some "person", id := some s })
    | some (.ent e) => some (.ent e)
  { Activity.empty with
    verb := some verb
    objectType := some "activity"
    actor := finalActor
    object := object
    target := target }

/-- Creation parameters after participant resolution/deduplication. -/
structure CreateParams where
  participants : List String
  comment : Option String
  displayName : Option String
deriving DecidableEq, Repr

/-- The grouped-creation payload built by
`_prepareConversationForCreation` (the `activities` field holds the
`items` array of the payload). -/
structure CreationPayload where
  activities : List Activity
  objectType : String
  kmsMessage : KmsMessage
  displayName : Option String
  tags : Option (List String)
deriving DecidableEq, Repr

/-- `_prepareConversationForCreation(params)`: a create activity, one
add activity per participant, an optional post activity, and a KMS
create message naming all participants. -/
def _prepareConversationForCreation (ctx : Ctx) (params : CreateParams) :
    CreationPayload :=
  { activities :=
      expand ctx "create" none none none
        :: (params.participants.map (fun participant =>
              expand ctx "add"
                (some { Entity.empty with objectType := some "person", id := some participant })
                none none)
            ++ (match params.comment with
                | some c =>
                  [expand ctx "post"
                    (some { Entity.empty with objectType := some "comment", displayName := some c })
                    none none]
                | none => []))
    objectType := "conversation"
    kmsMessage :=
      { method := "create"
        uri := "/resources"
        resourceUri := none
        userIds := some params.participants
        keyUris := some [] }
    displayName := params.displayName
    tags := none }

/-- A rejection reason: an optional HTTP status code (absent for local
errors such as a thrown `TypeError`) and a message. -/
structure Failure where
  statusCode : Option Nat
  message : String
deriving DecidableEq, Repr

/-- The JavaScript value held in `conversation.activities`: either an
array, or (as the conversation service actually returns it) an object
whose `items` property is the array. -/
inductive ActivitiesVal where
  | arr (items : List Activity)
  | obj (items : List Activity)
deriving DecidableEq, Repr

/-- Message of the `TypeError` thrown by calling `.push` on a non-array
value. -/
def pushTypeErrorMsg : String :=
  "TypeError: conversation.activities.push is not a function"

/-- JavaScript `value.push(x)`: appends when the value is an array,
throws a `TypeError` otherwise. -/
def jsPush : ActivitiesVal → Activity → Except Failure ActivitiesVal
  | .arr xs, a => .ok (.arr (xs ++ [a]))
  | .obj _, _ => .error ⟨none, pushTypeErrorMsg⟩

/-- A conversation as returned by the lookup `get`. -/
structure FoundConv where
  activities : ActivitiesVal
deriving DecidableEq, Repr

/-- Terminal outcome of the one-on-one resolver. -/
inductive OneOnOneOutcome where
  | found (c : FoundConv)
  | posted (c : FoundConv)
  | created (payload : CreationPayload)
deriving DecidableEq, Repr

/-- `_maybeCreateOneOnOneThenPost(params, options)`: run the lookup and,
on success, optionally post the supplied comment and push the resulting
activity onto `conversation.activities`; any rejection from that whole
chain falls into the trailing catch, which recreates the conversation
(tagged ONE_ON_ONE) exactly when the reason's `statusCode` is 404 and
re-rejects otherwise.  `lookup` is the lookup result and `postResult`
the follow-up post's result; both are external collaborators. -/
def _maybeCreateOneOnOneThenPost (ctx : Ctx) (params : CreateParams)
    (lookup : Except Failure FoundConv) (postResult : Except Failure Activity) :
    Except Failure OneOnOneOutcome :=
  let thenPart : Except Failure OneOnOneOutcome :=
    match lookup with
    | .error r => .error r
    | .ok conversation =>
      match params.comment with
      | none => .ok (.found conversation)
      | some _ =>
        match postResult with
        | .error r => .error r
        | .ok activity =>
          match jsPush conversation.activities activity with
          | .error r => .error r
          | .ok acts => .ok (.posted { conversation with activities := acts })
  match thenPart with
  | .ok o => .ok o
  | .error r =>
    if r.statusCode = some 404 then
      .ok (.created
        { _prepareConversationForCreation ctx params with tags := some ["ONE_ON_ONE"] })
    else .error r

/-- C2: when the one-on-one lookup rejects with statusCode 404 the
resolver falls back to creating a conversation whose payload carries
tags ONE_ON_ONE; any other lookup rejection propagates unchanged and no
creation happens. -/
theorem oneOnOne_404_fallback (ctx : Ctx) (params : CreateParams) (r : Failure)
    (postResult : Except Failure Activity) :
    (r.statusCode = some 404 →
      _maybeCreateOneOnOneThenPost ctx params (.error r) postResult
        = .ok (.created
            { _prepareConversationForCreation ctx params with tags := some ["ONE_ON_ONE"] }))
    ∧ (r.statusCode ≠ some 404 →
      _maybeCreateOneOnOneThenPost ctx params (.error r) postResult = .error r) := by
  constructor
  · intro h
    simp [_maybeCreateOneOnOneThenPost, h]
  · intro h
    simp [_maybeCreateOneOnOneThenPost, h]

/-- A 404 rejection. -/
def rNotFound : Failure := ⟨some 404, "not found"⟩

/-- A non-404 rejection. -/
def rServer : Failure := ⟨some 500, "server error"⟩

/-- A two-party creation request without comment. -/
def params1 : CreateParams := ⟨["user-0", "user-1"], none, none⟩

/-- Witness for C2: a 404 lookup failure creates (tagged ONE_ON_ONE), a
500 one propagates unchanged. -/
theorem oneOnOne_404_fallback_witness :
    _maybeCreateOneOnOneThenPost ctx0 params1 (.error rNotFound) (.ok postActivity)
      = .ok (.created
          { _prepareConversationForCreation ctx0 params1 with tags := some ["ONE_ON_ONE"] })
    ∧ _maybeCreateOneOnOneThenPost ctx0 params1 (.error rServer) (.ok postActivity)
      = .error rServer := by
  constructor
  · exact (oneOnOne_404_fallback ctx0 params1 rNotFound (.ok postActivity)).1 (by decide)
  · exact (oneOnOne_404_fallback ctx0 params1 rServer (.ok postActivity)).2 (by decide)

/-- A two-party creation request with a comment. -/
def paramsWithComment : CreateParams := ⟨["user-0", "user-1"], some "hi", none⟩

/-- A found conversation whose `activities` is the service's
items-container object, not a bare array. -/
def foundConv : FoundConv := ⟨.obj []⟩

/-- C5 (code-bug evaluation): with a successful lookup and a supplied
comment, the code calls `.push` on `conversation.activities` (the
container object, not its `items` array), so the call rejects with a
`TypeError` — re-thrown by the trailing catch since it has no 404
status — instead of returning the conversation with the comment
appended to `conversation.activities.items`. -/
theorem oneOnOne_found_comment_push_fails :
    _maybeCreateOneOnOneThenPost ctx0 paramsWithComment (.ok foundConv) (.ok postActivity)
      = .error ⟨none, pushTypeErrorMsg⟩ := rfl

/-! ## KeyBindingPolicy (`_updateKey`) -/

/-- A conversation participant. -/
structure Person where
  id : String
deriving DecidableEq, Repr

/-- A conversation record as consumed by the key-binding logic. -/
structure Conv where
  id : Option String
  url : Option String
  objectType : Option String
  defaultActivityEncryptionKeyUrl : Option String
  kmsResourceObjectUrl : Option String
  participants : List Person
deriving DecidableEq, Repr

/-- `prepareConversation(conversation)`: picks the addressing and key
properties and defaults `objectType` to conversation. -/
def prepareConversation (c : Conv) : Entity :=
  { Entity.empty with
    id := c.id
    url := c.url
    objectType := c.objectType <|> some "conversation"
    kmsResourceObjectUrl := c.kmsResourceObjectUrl
    defaultActivityEncryptionKeyUrl := c.defaultActivityEncryptionKeyUrl }

/-- `_updateKey(conversation, key)` up to the `prepare` call: resolves
the working key (`key || createUnboundKeys({count:1})`, then first
element if an array) and emits the params — in particular the
kmsMessage, chosen by whether the conversation already carries
`defaultActivityEncryptionKeyUrl`.  `none` models the `TypeError` of
reading `.uri` when no key is available. -/
def _updateKey (c : Conv) (key : Option Keys) (kmsResult : Keys) :
    Option PrepareParams :=
  let keys := key.getD kmsResult
  match pickFirst keys with
  | none => none
  | some k =>
    some
      { verb := some "updateKey"
        kmsMessage := some
          (if truthy c.defaultActivityEncryptionKeyUrl then
            { method := "update"
              uri := k.uri
              resourceUri := some "<KRO>"
              userIds := none
              keyUris := none }
          else
            { method := "create"
              uri := "/resources"
              resourceUri := none
              userIds := some (c.participants.map Person.id)
              keyUris := some [k.uri] })
        target := some (prepareConversation c)
        object := some
          { Entity.empty with
            objectType := some "conversation"
            defaultActivityEncryptionKeyUrl := some k.uri }
        actor := none }

/-- C1: `_updateKey` emits an update kmsMessage against the KRO when the
conversation carries `defaultActivityEncryptionKeyUrl`, and otherwise a
create kmsMessage on `/resources` naming every current participant and
the key uri; the working key is the supplied one when given, else the
first element of the freshly minted batch. -/
theorem updateKey_kms_selection (c : Conv) (suppliedKey : Option Key)
    (kmsResult : Keys) (k : Key)
    (hk : pickFirst ((suppliedKey.map Keys.single).getD kmsResult) = some k) :
    (∃ p, _updateKey c (suppliedKey.map Keys.single) kmsResult = some p
      ∧ p.kmsMessage = some
          (if truthy c.defaultActivityEncryptionKeyUrl then
            { method := "update"
              uri := k.uri
              resourceUri := some "<KRO>"
              userIds := none
              keyUris := none }
          else
            { method := "create"
              uri := "/resources"
              resourceUri := none
              userIds := some (c.participants.map Person.id)
              keyUris := some [k.uri] }))
    ∧ (∀ k0, suppliedKey = some k0 → k = k0) := by
  constructor
  · simp only [_updateKey]
    rw [hk]
    exact ⟨_, rfl, rfl⟩
  · intro k0 hk0
    subst hk0
    simp [pickFirst] at hk
    exact hk.symm

/-- A conversation already carrying a default activity encryption key
URL. -/
def convWithKeyUrl : Conv :=
  { id := some "c1"
    url := some "https://conv/conversations/c1"
    objectType := none
    defaultActivityEncryptionKeyUrl := some "kms://old-key"
    kmsResourceObjectUrl := some "kms://kro"
    participants := [⟨"p1"⟩, ⟨"p2"⟩] }

/-- The same conversation without a bound key. -/
def convNoKeyUrl : Conv :=
  { convWithKeyUrl with defaultActivityEncryptionKeyUrl := none }

/-- A caller-supplied key. -/
def keyA : Key := ⟨"kms://key-a"⟩

/-- A freshly minted key. -/
def keyB : Key := ⟨"kms://key-b"⟩

/-- Witness for C1: the update path with a supplied key, and the create
path with a minted batch-of-one. -/
theorem updateKey_kms_selection_witness :
    (∃ p, _updateKey convWithKeyUrl ((some keyA).map Keys.single) (Keys.batch []) = some p
      ∧ p.kmsMessage = some ⟨"update", "kms://key-a", some "<KRO>", none, none⟩)
    ∧ (∃ p, _updateKey convNoKeyUrl ((none : Option Key).map Keys.single) (Keys.batch [keyB]) = some p
      ∧ p.kmsMessage = some ⟨"create", "/resources", none, some ["p1", "p2"], some ["kms://key-b"]⟩) := by
  constructor
  · obtain ⟨⟨p, h1, h2⟩, _⟩ :=
      updateKey_kms_selection convWithKeyUrl (some keyA) (Keys.batch []) keyA (by decide)
    refine ⟨p, h1, ?_⟩
    rw [h2]
    decide
  · obtain ⟨⟨p, h1, h2⟩, _⟩ :=
      updateKey_kms_selection convNoKeyUrl none (Keys.batch [keyB]) keyB (by decide)
    refine ⟨p, h1, ?_⟩
    rw [h2]
    decide

/-! ## Team outbound encryption transform (`encryptTeam`) -/

/-- The value stored into a team key-URL property by `k.uri || k`: the
key's uri string when truthy, otherwise the key object itself. -/
inductive KeyRef where
  | uri (s : String)
  | obj (k : Key)
deriving DecidableEq, Repr

/-- The JavaScript expression `k.uri || k`. -/
def keyRefOf (k : Key) : KeyRef :=
  if k.uri.isEmpty then .obj k else .uri k.uri

/-- The JavaScript expression
`team.defaultActivityEncryptionKeyUrl || k.uri || k`: the first truthy
value. -/
def jsOrKeyRef (existing : Option KeyRef) (k : Key) : KeyRef :=
  match existing with
  | some (.uri s) => if s.isEmpty then keyRefOf k else .uri s
  | some (.obj o) => .obj o
  | none => keyRefOf k

/-- A team record, restricted to the properties the outbound transform
touches. -/
structure Team where
  kmsMessage : Option KmsMessage
  encryptionKeyUrl : Option KeyRef
  defaultActivityEncryptionKeyUrl : Option KeyRef
deriving DecidableEq, Repr

/-- The key argument of the transform: absent, the literal `false`
sentinel (skip the whole transform), or a caller-supplied key / key
collection. -/
inductive TeamKeyInput where
  | absent
  | falseSentinel
  | supplied (ks : Keys)
deriving DecidableEq, Repr

/-- The keyUris accumulation step of `encryptTeam`: when the team
already has a kmsMessage carrying a keyUris list, the bound key's uri is
appended unless already present. -/
def pushKeyUri (team : Team) (k : Key) : Team :=
  match team.kmsMessage with
  | some m =>
    match m.keyUris with
    | some uris =>
      if uris.contains k.uri then team
      else { team with kmsMessage := some { m with keyUris := some (uris ++ [k.uri]) } }
    | none => team
  | none => team

/-- The mutation performed by `encryptTeam` once the working key `k` is
resolved: keyUris accumulation, `encryptionKeyUrl := k.uri || k`, and —
only when no caller key was supplied — `defaultActivityEncryptionKeyUrl`
defaulted to its existing value or the bound key. -/
def encryptTeamWithKey (team : Team) (k : Key) (callerSupplied : Bool) : Team :=
  let team1 := pushKeyUri team k
  let team2 := { team1 with encryptionKeyUrl := some (keyRefOf k) }
  if callerSupplied then team2
  else
    { team2 with
      defaultActivityEncryptionKeyUrl :=
        some (jsOrKeyRef team2.defaultActivityEncryptionKeyUrl k) }

/-- `encryptTeam(ctx, key, team)`: no-op on the `false` sentinel;
otherwise resolve the working key (`key || createUnboundKeys({count:1})`
and first element if an array) and mutate the team.  `none` models the
`TypeError` of an empty key batch. -/
def encryptTeam (team : Team) (input : TeamKeyInput) (kmsResult : Keys) : Option Team :=
  match input with
  | .falseSentinel => some team
  | .supplied ks =>
    match pickFirst ks with
    | none => none
    | some k => some (encryptTeamWithKey team k true)
  | .absent =>
    match pickFirst kmsResult with
    | none => none
    | some k => some (encryptTeamWithKey team k false)

theorem keyRefOf_uri (k : Key) (h : k.uri ≠ "") : keyRefOf k = .uri k.uri := by
  have hb : ¬ (k.uri.isEmpty = true) := fun hb => h ((String.isEmpty_iff k.uri).mp hb)
  simp [keyRefOf, hb]

theorem pushKeyUri_default (team : Team) (k : Key) :
    (pushKeyUri team k).defaultActivityEncryptionKeyUrl
      = team.defaultActivityEncryptionKeyUrl := by
  unfold pushKeyUri
  cases hm : team.kmsMessage with
  | none => rfl
  | some m =>
    obtain ⟨mm, mu, mr, mus, mks⟩ := m
    cases mks with
    | none => rfl
    | some uris =>
      by_cases hc : k.uri ∈ uris
      · simp [hc]
      · simp [hc]

theorem pushKeyUri_kms (team : Team) (k : Key) (m : KmsMessage) (uris : List String)
    (hm : team.kmsMessage = some m) (hu : m.keyUris = some uris) :
    (pushKeyUri team k).kmsMessage =
      some { m with keyUris := some (if uris.contains k.uri then uris else uris ++ [k.uri]) } := by
  obtain ⟨mm, mu, mr, mus, mks⟩ := m
  replace hu : mks = some uris := hu
  subst hu
  unfold pushKeyUri
  rw [hm]
  by_cases hc : k.uri ∈ uris
  · simp [hc, hm]
  · simp [hc]

theorem encryptTeamWithKey_kms (team : Team) (k : Key) (b : Bool) :
    (encryptTeamWithKey team k b).kmsMessage = (pushKeyUri team k).kmsMessage := by
  unfold encryptTeamWithKey
  cases b <;> rfl

theorem encryptTeamWithKey_enc (team : Team) (k : Key) (b : Bool) :
    (encryptTeamWithKey team k b).encryptionKeyUrl = some (keyRefOf k) := by
  unfold encryptTeamWithKey
  cases b <;> rfl

theorem encryptTeamWithKey_default_true (team : Team) (k : Key) :
    (encryptTeamWithKey team k true).defaultActivityEncryptionKeyUrl
      = (pushKeyUri team k).defaultActivityEncryptionKeyUrl := rfl

theorem encryptTeamWithKey_default_false (team : Team) (k : Key) :
    (encryptTeamWithKey team k false).defaultActivityEncryptionKeyUrl
      = some (jsOrKeyRef (pushKeyUri team k).defaultActivityEncryptionKeyUrl k) := rfl

/-- C9: when the outbound team transform binds a key `k` (with a truthy
uri), the bound uri is appended to an existing `kmsMessage.keyUris` list
only when not already present; `encryptionKeyUrl` becomes the bound
key's uri; and `defaultActivityEncryptionKeyUrl` is touched only when no
caller key was supplied, in which case it keeps its existing (truthy)
value or receives the bound key's uri. -/
theorem encryptTeam_key_binding (team : Team) (input : TeamKeyInput) (kmsResult : Keys)
    (k : Key) (hne : k.uri ≠ "")
    (hk : (match input with
           | .supplied ks => pickFirst ks
           | .absent => pickFirst kmsResult
           | .falseSentinel => none) = some k) :
    ∃ t, encryptTeam team input kmsResult = some t
      ∧ (∀ m uris, team.kmsMessage = some m → m.keyUris = some uris →
          t.kmsMessage = some { m with keyUris := some (if uris.contains k.uri then uris else uris ++ [k.uri]) })
      ∧ t.encryptionKeyUrl = some (.uri k.uri)
      ∧ (∀ ks, input = .supplied ks →
          t.defaultActivityEncryptionKeyUrl = team.defaultActivityEncryptionKeyUrl)
      ∧ (input = .absent → ∀ s, s ≠ "" →
          team.defaultActivityEncryptionKeyUrl = some (.uri s) →
          t.defaultActivityEncryptionKeyUrl = some (.uri s))
      ∧ (input = .absent → team.defaultActivityEncryptionKeyUrl = none →
          t.defaultActivityEncryptionKeyUrl = some (.uri k.uri)) := by
  cases input with
  | falseSentinel => simp at hk
  | supplied ks =>
    replace hk : pickFirst ks = some k := hk
    refine ⟨encryptTeamWithKey team k true, ?_, ?_, ?_, ?_, ?_, ?_⟩
    · simp only [encryptTeam]
      rw [hk]
    · intro m uris hm hu
      rw [encryptTeamWithKey_kms]
      exact pushKeyUri_kms team k m uris hm hu
    · rw [encryptTeamWithKey_enc, keyRefOf_uri k hne]
    · intro ks0 _
      rw [encryptTeamWithKey_default_true, pushKeyUri_default]
    · intro habs
      simp at habs
    · intro habs
      simp at habs
  | absent =>
    replace hk : pickFirst kmsResult = some k := hk
    refine ⟨encryptTeamWithKey team k false, ?_, ?_, ?_, ?_, ?_, ?_⟩
    · simp only [encryptTeam]
      rw [hk]
    · intro m uris hm hu
      rw [encryptTeamWithKey_kms]
      exact pushKeyUri_kms team k m uris hm hu
    · rw [encryptTeamWithKey_enc, keyRefOf_uri k hne]
    · intro ks0 habs
      simp at habs
    · intro _ s hs hd
      rw [encryptTeamWithKey_default_false, pushKeyUri_default, hd]
      have hbs : ¬ (s.isEmpty = true) := fun hb => hs ((String.isEmpty_iff s).mp hb)
      simp [jsOrKeyRef, hbs]
    · intro _ hd
      rw [encryptTeamWithKey_default_false, pushKeyUri_default, hd]
      rw [show jsOrKeyRef none k = keyRefOf k from rfl, keyRefOf_uri k hne]

/-- A team whose kmsMessage already tracks one key uri and which has no
bound keys yet. -/
def teamA : Team :=
  { kmsMessage := some ⟨"create", "/resources", none, some ["u1"], some ["kms://key-a"]⟩
    encryptionKeyUrl := none
    defaultActivityEncryptionKeyUrl := none }

/-- Witness for C9: binding a freshly minted key appends its uri to the
tracked keyUris, sets `encryptionKeyUrl`, and fills the absent
`defaultActivityEncryptionKeyUrl`. -/
theorem encryptTeam_key_binding_witness :
    ∃ t, encryptTeam teamA .absent (Keys.batch [keyB]) = some t
      ∧ t.kmsMessage
          = some ⟨"create", "/resources", none, some ["u1"], some ["kms://key-a", "kms://key-b"]⟩
      ∧ t.encryptionKeyUrl = some (.uri "kms://key-b")
      ∧ t.defaultActivityEncryptionKeyUrl = some (.uri "kms://key-b") := by
  obtain ⟨t, h1, h2, h3, _, _, h6⟩ :=
    encryptTeam_key_binding teamA .absent (Keys.batch [keyB]) keyB (by decide) (by decide)
  refine ⟨t, h1, ?_, ?_, ?_⟩
  · have hm := h2 ⟨"create", "/resources", none, some ["u1"], some ["kms://key-a"]⟩
      ["kms://key-a"] rfl rfl
    rw [hm]
    decide
  · exact h3
  · exact h6 rfl rfl
